import Mathlib

/-!
# Verification of the faucet backend's claim orchestration

Shallow embedding of the faucet backend (TypeScript/Express/PostgreSQL) and
proofs about its claim orchestration logic.

Sources embedded:
* `src/models/Claim.ts` — `ClaimModel` (cooldown queries, claim records,
  asset registry lookups);
* `src/routes/faucet.ts` — the `POST /claim` route handler (the claim
  orchestrator);
* `src/services/blockchain.ts` — `BlockchainService` (balance checks,
  contract-address lookup, transfer submission);
* the database schema (`DatabaseService.createTables`), in particular the
  `unique_daily_claim` index on `claims (wallet_address, asset, DATE(claimed_at))`
  and the primary keys of `cooldowns` and `assets`.

Modelling conventions:
* A PostgreSQL table is a Lean `List` of row structures; `SELECT ... WHERE`
  with a key is `List.find?`, `INSERT` appends, `UPDATE` maps.
* A fixed-point decimal string such as `"4.99"` is represented by the pair
  of its integer digits and its scale (`Dec`), denoting `num / 10 ^ scale`
  exactly.  JavaScript's `parseFloat` (conversion to an IEEE-754 binary64
  value, round-to-nearest, ties-to-even) is modelled by `parseFloatDec`,
  which produces the exact rational value of the resulting double as an
  integer mantissa/exponent pair (`Fp`).  The model covers the normal range
  (no overflow/subnormals), which contains every value appearing here.
* Timestamps are integers (milliseconds since epoch, as in JavaScript
  `Date.getTime()`); SQL `DATE(...)` is the UTC day index `t / 86400000`.
* Each `await` in the route handler is an atomic step against shared state;
  the interleaving machine in the concurrency section makes this explicit.
* External collaborators (the JSON-RPC node, the signing wallet) are an
  explicit environment `Env`: balance queries may fail (`Option`), and a
  transfer submission resolves to a hash or an error (`Except`).
-/

namespace Faucet

/-! ## Fixed-point decimal values

`Dec` is the exact value of a decimal string: `⟨num, scale⟩` denotes
`num / 10 ^ scale`.  Claim amounts (SQL `DECIMAL(18,8)` read back as strings)
and pool balances (`ethers.formatUnits` output) are such strings. -/

structure Dec where
  num : ℤ
  scale : ℕ
deriving DecidableEq, Repr

/-- The exact rational value a decimal string denotes. -/
def Dec.toRat (d : Dec) : ℚ := d.num / 10 ^ d.scale

/-- Exact decimal comparison `a < b` (cross multiplication, no rounding).
This is the comparison the spec prescribes for balance-vs-amount; the code
instead compares `parseFloat` images (see `checkSufficientBalance`). -/
def Dec.declt (a b : Dec) : Bool := a.num * 10 ^ b.scale < b.num * 10 ^ a.scale

/-! ## A model of JavaScript `parseFloat` / binary64 rounding -/

/-- Fuel-based bit length: `bitLenAux fuel n` is the number of binary digits
of `n`, provided `n ≤ fuel` (structural recursion so that the kernel can
evaluate it). -/
def bitLenAux : ℕ → ℕ → ℕ
  | 0, _ => 0
  | fuel + 1, n => if n = 0 then 0 else bitLenAux fuel (n / 2) + 1

/-- Number of binary digits of `n` (`bitLen 0 = 0`, `bitLen 5 = 3`). -/
def bitLen (n : ℕ) : ℕ := bitLenAux n n

/-- Predicate `gePow2 m k e` decides `m / 10^k ≥ 2^e` by cross multiplication
(one of the two exponents is always zero). -/
def gePow2 (m : ℕ) (k : ℕ) (e : ℤ) : Bool :=
  10 ^ k * 2 ^ e.toNat ≤ m * 2 ^ (-e).toNat

/-- Computes `⌊log₂ (m / 10^k)⌋` for `m ≥ 1`, computed from bit lengths: the true
floor-log is `bitLen m - bitLen (10^k)` or one less, and `gePow2` decides
which. -/
def floorLog2Dec (m : ℕ) (k : ℕ) : ℤ :=
  let e0 : ℤ := (bitLen m : ℤ) - (bitLen (10 ^ k) : ℤ)
  if gePow2 m k e0 then e0 else e0 - 1

/-- Round `a / b` (with `b > 0`) to the nearest integer, ties to even —
IEEE-754 default rounding. -/
def roundNE (a b : ℕ) : ℕ :=
  let q := a / b
  let r := a % b
  if 2 * r < b then q
  else if b < 2 * r then q + 1
  else if q % 2 = 0 then q else q + 1

/-- A binary floating-point value `mant * 2 ^ exp` (exact, unnormalised). -/
structure Fp where
  mant : ℤ
  exp : ℤ
deriving DecidableEq, Repr

/-- Comparison `x ≤ y` of two `Fp` values by aligning exponents. -/
def Fp.fple (x y : Fp) : Bool :=
  if x.exp ≤ y.exp then x.mant ≤ y.mant * 2 ^ (y.exp - x.exp).toNat
  else x.mant * 2 ^ (x.exp - y.exp).toNat ≤ y.mant

/-- Binary64 rounding of the positive value `m / 10^k` (`m ≥ 1`): scale into
`[2^52, 2^53]` using the floor-log₂ and round to nearest, ties to even. -/
def parseFloatPos (m : ℕ) (k : ℕ) : Fp :=
  let e : ℤ := floorLog2Dec m k
  let s : ℤ := 52 - e
  let a : ℕ := m * 2 ^ s.toNat
  let b : ℕ := 10 ^ k * 2 ^ (-s).toNat
  ⟨(roundNE a b : ℤ), e - 52⟩

/-- JavaScript `parseFloat` on the decimal string denoted by `d`: the exact
value of the binary64 double nearest to `d` (ties to even; normal range). -/
def parseFloatDec (d : Dec) : Fp :=
  if d.num = 0 then ⟨0, 0⟩
  else if 0 < d.num then parseFloatPos d.num.toNat d.scale
  else
    let f := parseFloatPos (-d.num).toNat d.scale
    ⟨-f.mant, f.exp⟩

/-! ## BlockchainService (`src/services/blockchain.ts`) -/

/-- The token contract addresses from configuration (`config.contracts`). -/
structure Contracts where
  SHIB : String
  TREAT : String
  USDT : String
  USDC : String
deriving DecidableEq

/-- The external world as seen by the service: configuration, the result of
balance queries (`none` models a thrown RPC error), and the result of an
actual transfer submission (`Except.error` models any throw: RPC failure,
gas estimation failure, rejected transaction, timeout). -/
structure Env where
  contracts : Contracts
  balances : String → Option Dec
  sendResult : String → String → Dec → Except Unit String

/-- ASCII upper-casing, as `String.toUpperCase` in JavaScript on the inputs
involved (asset symbols). -/
def toUpperStr (s : String) : String := ⟨s.data.map Char.toUpper⟩

/-- ASCII lower-casing, as `String.toLowerCase` in JavaScript on the inputs
involved (hexadecimal wallet addresses). -/
def toLowerStr (s : String) : String := ⟨s.data.map Char.toLower⟩

/-- Embeds `BlockchainService.getContractAddress` (blockchain.ts lines 164-175):
`switch` over the upper-cased symbol; `BONE` is the native token, four ERC-20
tokens come from configuration, anything else throws. -/
def getContractAddress (cfg : Contracts) (asset : String) : Except String String :=
  match toUpperStr asset with
  | "BONE" => .ok "native"
  | "SHIB" => .ok cfg.SHIB
  | "TREAT" => .ok cfg.TREAT
  | "USDT" => .ok cfg.USDT
  | "USDC" => .ok cfg.USDC
  | _ => .error ("Unsupported asset: " ++ asset)

/-- Embeds `BlockchainService.getTokenBalance` (blockchain.ts lines 83-111): query
the balance for a contract address (or the native balance); any error is
caught and the string `'0'` is returned. -/
def getTokenBalance (env : Env) (contractAddress : String) : Dec :=
  (env.balances contractAddress).getD ⟨0, 0⟩

/-- Embeds `BlockchainService.checkSufficientBalance` (blockchain.ts lines 153-162):
`parseFloat(balance) >= parseFloat(amount)` on the decimal strings, with any
thrown error (in particular from `getContractAddress`) caught and turned into
`false`.  Total by construction — the route never sees a throw from it. -/
def checkSufficientBalance (env : Env) (asset : String) (amount : Dec) : Bool :=
  match getContractAddress env.contracts asset with
  | .error _ => false
  | .ok addr => (parseFloatDec amount).fple (parseFloatDec (getTokenBalance env addr))

/-- Character class of `[0-9a-fA-F]`. -/
def isHexChar (c : Char) : Bool :=
  c.isDigit || ('a' ≤ c && c ≤ 'f') || ('A' ≤ c && c ≤ 'F')

/-- The route's address validator (faucet.ts lines 8-10):
`/^0x[a-fA-F0-9]{40}$/`. -/
def isValidAddress (s : String) : Bool :=
  match s.data with
  | '0' :: 'x' :: rest => rest.length == 40 && rest.all isHexChar
  | _ => false

/-- Models `ethers.isAddress`, used inside `BlockchainService.sendAsset`
(blockchain.ts lines 132-139).  Modelled for the inputs that occur here:
a `0x`-prefixed 40-hex-digit string whose letters are not mixed-case
(EIP-55 checksum validation of mixed-case addresses is not modelled; the
route only ever passes addresses it has already validated). -/
def ethersIsAddress (s : String) : Bool :=
  isValidAddress s &&
    (let letters := (s.data.drop 2).filter Char.isAlpha
     letters.all Char.isLower || letters.all Char.isUpper)

/-- Embeds `BlockchainService.sendAsset` (blockchain.ts lines 178-202): validate the
destination address, re-check the pool balance, then submit the transfer
(`sendBONE` or `sendToken`, both collapsing to the environment's submission
outcome); any failure propagates as a thrown error (`Except.error`). -/
def sendAsset (env : Env) (asset : String) (toAddress : String) (amount : Dec) :
    Except Unit String :=
  if ¬ ethersIsAddress toAddress then .error ()
  else if ¬ checkSufficientBalance env asset amount then .error ()
  else env.sendResult asset toAddress amount

/-! ## Data model (database schema, `DatabaseService.createTables`)

Tables are lists of rows; `claims.id` is `SERIAL` (the store hands out
`nextId` and increments it); `cooldowns` has primary key
`(wallet_address, asset)`; `assets` has primary key `symbol`; and
`unique_daily_claim` is a unique index on
`claims (wallet_address, asset, DATE(claimed_at))`. -/

/-- A row of `assets` (`IAsset` in Claim.ts). -/
structure AssetRow where
  symbol : String
  name : String
  amount : Dec
  cooldown_hours : ℤ
  contract_address : Option String
  is_active : Bool
deriving DecidableEq, Repr

/-- A row of `cooldowns` (`ICooldown` in Claim.ts). -/
structure CooldownRow where
  wallet_address : String
  asset : String
  last_claim_at : ℤ
deriving DecidableEq, Repr

/-- A row of `claims` (`IClaim` in Claim.ts); `status` is one of
`"pending"`, `"confirmed"`, `"failed"`. -/
structure ClaimRow where
  id : ℕ
  wallet_address : String
  asset : String
  amount : Dec
  tx_hash : Option String
  status : String
  claimed_at : ℤ
deriving DecidableEq, Repr

/-- The durable store: the three tables plus the next `SERIAL` id. -/
structure DB where
  assets : List AssetRow
  cooldowns : List CooldownRow
  claims : List ClaimRow
  nextId : ℕ
deriving DecidableEq, Repr

/-- SQL `DATE(t)` on a millisecond timestamp: the UTC day index. -/
def dateOf (t : ℤ) : ℤ := t.ediv 86400000

/-! ## ClaimModel (`src/models/Claim.ts`) -/

/-- Embeds `ClaimModel.getAsset` (Claim.ts lines 137-149):
`SELECT * FROM assets WHERE symbol = $1 AND is_active = true`, first row or
null. -/
def getAsset (db : DB) (symbol : String) : Option AssetRow :=
  db.assets.find? fun a => a.symbol == symbol && a.is_active

/-- The join both cooldown queries issue (Claim.ts lines 33-39 and 60-66):
`SELECT last_claim_at, cooldown_hours FROM cooldowns c JOIN assets a ON
c.asset = a.symbol WHERE c.wallet_address = $1 AND c.asset = $2`.  Empty when
either the cooldown entry or the asset row is missing. -/
def cooldownJoin (db : DB) (walletAddress : String) (asset : String) :
    Option (ℤ × ℤ) :=
  match db.cooldowns.find? fun c => c.wallet_address == walletAddress && c.asset == asset,
        db.assets.find? fun a => a.symbol == asset with
  | some c, some a => some (c.last_claim_at, a.cooldown_hours)
  | _, _ => none

/-- Embeds `ClaimModel.canClaim` (Claim.ts lines 31-55): no row means no previous
claim (eligible); otherwise eligible exactly when
`now - lastClaim > cooldown_hours * 60 * 60 * 1000` (strict). -/
def canClaim (db : DB) (now : ℤ) (walletAddress : String) (asset : String) : Bool :=
  match cooldownJoin db walletAddress asset with
  | none => true
  | some (last, h) => decide (now - last > h * 60 * 60 * 1000)

/-- Embeds `ClaimModel.getRemainingCooldown` (Claim.ts lines 58-83):
`max(0, cooldownMs - elapsed)`, `0` when no row. -/
def getRemainingCooldown (db : DB) (now : ℤ) (walletAddress : String) (asset : String) : ℤ :=
  match cooldownJoin db walletAddress asset with
  | none => 0
  | some (last, h) => max 0 (h * 60 * 60 * 1000 - (now - last))

/-- Embeds `ClaimModel.createClaim` (Claim.ts lines 86-100): `INSERT INTO claims ...
RETURNING *`.  The insert violates the schema's `unique_daily_claim` index —
and therefore throws — when a claim row for the same
`(wallet_address, asset, DATE(claimed_at))` already exists; `claimed_at`
defaults to `NOW()` and `id` to the next serial value. -/
def createClaim (db : DB) (now : ℤ) (walletAddress : String) (asset : String)
    (amount : Dec) (txHash : Option String) (status : String) :
    Except Unit (DB × ClaimRow) :=
  if db.claims.any fun r =>
      r.wallet_address == walletAddress && r.asset == asset &&
        dateOf r.claimed_at == dateOf now then
    .error ()
  else
    let row : ClaimRow :=
      ⟨db.nextId, walletAddress, asset, amount, txHash, status, now⟩
    .ok ({ db with claims := db.claims ++ [row], nextId := db.nextId + 1 }, row)

/-- Embeds `ClaimModel.updateCooldown` (Claim.ts lines 103-116): upsert of
`(wallet_address, asset) ↦ NOW()` (`ON CONFLICT ... DO UPDATE SET
last_claim_at = NOW()`). -/
def updateCooldown (db : DB) (now : ℤ) (walletAddress : String) (asset : String) : DB :=
  if db.cooldowns.any fun c => c.wallet_address == walletAddress && c.asset == asset then
    { db with
      cooldowns := db.cooldowns.map fun c =>
        if c.wallet_address == walletAddress && c.asset == asset then
          { c with last_claim_at := now }
        else c }
  else
    { db with cooldowns := db.cooldowns ++ [⟨walletAddress, asset, now⟩] }

/-- Embeds `ClaimModel.updateClaimStatus` (Claim.ts lines 166-176):
`UPDATE claims SET status = $1, tx_hash = $2 WHERE id = $3` — unconditional;
a missing `txHash` argument stores NULL. -/
def updateClaimStatus (db : DB) (id : ℕ) (status : String) (txHash : Option String) : DB :=
  { db with
    claims := db.claims.map fun r =>
      if r.id == id then { r with status := status, tx_hash := txHash } else r }

/-- Upsert of one seed row into `assets`
(`DatabaseService.seedAssets`, the registry's administrative write path):
`INSERT ... ON CONFLICT (symbol) DO UPDATE SET name, amount, cooldown_hours,
contract_address` (note: `is_active` is left as it is on conflict). -/
def upsertAsset (db : DB) (a : AssetRow) : DB :=
  if db.assets.any fun r => r.symbol == a.symbol then
    { db with
      assets := db.assets.map fun r =>
        if r.symbol == a.symbol then
          { r with name := a.name, amount := a.amount,
                   cooldown_hours := a.cooldown_hours,
                   contract_address := a.contract_address }
        else r }
  else
    { db with assets := db.assets ++ [a] }

/-! ## The claim route (`POST /api/faucet/claim`, faucet.ts lines 35-153) -/

/-- The route's possible responses, stripped to their discriminating content.
`validationError` is any 400 from the request-shape checks (missing field,
bad address, symbol outside the hard-coded list); `unsupportedAsset` is the
400 "Invalid Asset" for a symbol absent from the registry or inactive;
`cooldownActive` is the 429 with the remaining milliseconds;
`insufficientPoolBalance` is the 503; `transferFailed` is the 500 returned
after a failed transfer (it carries the claim id); `success` is the 200;
`internalError` is the catch-all 500 from the outer try/catch (e.g. a
database error such as a unique-index violation). -/
inductive Outcome where
  | validationError
  | unsupportedAsset
  | cooldownActive (remaining : ℤ)
  | insufficientPoolBalance
  | transferFailed (claimId : ℕ)
  | success (claimId : ℕ) (amount : Dec) (txHash : String)
  | internalError
deriving DecidableEq, Repr

/-- The hard-coded request whitelist (faucet.ts line 54). -/
def supportedAssets : List String := ["BONE", "SHIB", "TREAT", "USDT", "USDC", "ETH"]

/-- Steps 3-6 of the handler, once the asset is resolved
(faucet.ts lines 76-153):
3. `canClaim`; in cooldown → 429 with `getRemainingCooldown`;
4. `checkSufficientBalance`; short → 503;
5. `createClaim` with status `pending` (a unique-index violation propagates
   to the outer catch → 500);
6. `sendAsset`; on success `updateClaimStatus 'confirmed'` then
   `updateCooldown`, 200; on throw `updateClaimStatus 'failed'`, 500 with the
   claim id. -/
def claimSteps (env : Env) (db : DB) (now : ℤ) (walletAddress : String)
    (normalizedAddress : String) (normalizedAsset : String)
    (assetInfo : AssetRow) : DB × Outcome :=
  if ¬ canClaim db now normalizedAddress normalizedAsset then
    (db, .cooldownActive (getRemainingCooldown db now normalizedAddress normalizedAsset))
  else if ¬ checkSufficientBalance env normalizedAsset assetInfo.amount then
    (db, .insufficientPoolBalance)
  else
    match createClaim db now normalizedAddress normalizedAsset
        assetInfo.amount none "pending" with
    | .error _ => (db, .internalError)
    | .ok (db1, pendingClaim) =>
      match sendAsset env normalizedAsset walletAddress assetInfo.amount with
      | .error _ =>
        (updateClaimStatus db1 pendingClaim.id "failed" none,
         .transferFailed pendingClaim.id)
      | .ok txHash =>
        let db2 := updateClaimStatus db1 pendingClaim.id "confirmed" (some txHash)
        let db3 := updateCooldown db2 now normalizedAddress normalizedAsset
        (db3, .success pendingClaim.id assetInfo.amount txHash)

/-- The pending row `createClaim` inserts for one execution (abbreviation
used in statements about the handler). -/
def pendingRow (db : DB) (nw na : String) (ai : AssetRow) (now : ℤ) : ClaimRow :=
  ⟨db.nextId, nw, na, ai.amount, none, "pending", now⟩

/-- The store right after the pending insert of one execution. -/
def dbAfterInsert (db : DB) (nw na : String) (ai : AssetRow) (now : ℤ) : DB :=
  { db with claims := db.claims ++ [pendingRow db nw na ai now], nextId := db.nextId + 1 }

/-- Steps 1-6 of the handler after validation and normalisation
(faucet.ts lines 62-153). -/
def claimCore (env : Env) (db : DB) (now : ℤ)
    (walletAddress : String) (asset : String) : DB × Outcome :=
  match getAsset db (toUpperStr asset) with
  | none => (db, .unsupportedAsset)
  | some assetInfo =>
    claimSteps env db now walletAddress (toLowerStr walletAddress) (toUpperStr asset) assetInfo

/-- The `POST /claim` handler (faucet.ts lines 35-153), one call start to
finish, with `now` the call's clock reading: validation (presence — the
empty string models a missing/falsy field —, address regexp, symbol
whitelist), then normalisation and `claimCore`. -/
def attemptClaim (env : Env) (db : DB) (now : ℤ)
    (walletAddress : String) (asset : String) : DB × Outcome :=
  if walletAddress = "" || asset = "" then (db, .validationError)
  else if ¬ isValidAddress walletAddress then (db, .validationError)
  else if ¬ supportedAssets.contains (toUpperStr asset) then (db, .validationError)
  else claimCore env db now walletAddress asset

/-! ### Lookup helpers used in theorem statements -/

/-- The cooldown row stored for a `(wallet, asset)` key. -/
def lookupCooldown (db : DB) (walletAddress : String) (asset : String) :
    Option CooldownRow :=
  db.cooldowns.find? fun c => c.wallet_address == walletAddress && c.asset == asset

/-- The status stored for a claim id. -/
def claimStatus (db : DB) (id : ℕ) : Option String :=
  (db.claims.find? fun r => r.id == id).map fun r => r.status

/-- The amount stored for a claim id. -/
def claimAmount (db : DB) (id : ℕ) : Option Dec :=
  (db.claims.find? fun r => r.id == id).map fun r => r.amount

/-- Whether an outcome is the confirmed/success one. -/
def Outcome.isSuccess : Outcome → Bool
  | .success _ _ _ => true
  | _ => false

/-! ## Interleaving semantics for concurrent `POST /claim` calls

The handler runs on a single-threaded event loop; each `await` is a
suspension point, and the code holds no lock of any kind between them.  A
concurrent execution of several calls is therefore an arbitrary interleaving
of the atomic blocks between `await`s.  `Phase` names the suspension points
of one call (in source order); `threadStep` executes exactly one atomic
block of one call against the shared store; `runSched` interleaves two calls
according to a schedule (`true` steps the first call, `false` the second). -/

/-- Where one in-flight call stands: each constructor is the atomic block
that runs when the call is next scheduled, carrying the values the handler
holds in local variables at that point. -/
inductive Phase where
  | start
  | cooldownCheck (assetInfo : AssetRow)
  | remainingRead (assetInfo : AssetRow)
  | balanceCheck (assetInfo : AssetRow)
  | createRec (assetInfo : AssetRow)
  | sendTx (assetInfo : AssetRow) (pendingClaim : ClaimRow)
  | confirmWrite (assetInfo : AssetRow) (pendingClaim : ClaimRow) (txHash : String)
  | failWrite (pendingClaim : ClaimRow)
  | cooldownWrite (assetInfo : AssetRow) (pendingClaim : ClaimRow) (txHash : String)
  | done (outcome : Outcome)
deriving DecidableEq, Repr

/-- One in-flight call: its request body and its current phase. -/
structure Th where
  wallet : String
  asset : String
  phase : Phase
deriving DecidableEq, Repr

/-- One atomic block of the handler (faucet.ts lines 35-153, cut at each
`await`), against the shared store.  A `done` call never moves again. -/
def threadStep (env : Env) (now : ℤ) (db : DB) (t : Th) : DB × Th :=
  match t.phase with
  | .start =>
    if t.wallet = "" || t.asset = "" then (db, { t with phase := .done .validationError })
    else if ¬ isValidAddress t.wallet then (db, { t with phase := .done .validationError })
    else if ¬ supportedAssets.contains (toUpperStr t.asset) then
      (db, { t with phase := .done .validationError })
    else
      match getAsset db (toUpperStr t.asset) with
      | none => (db, { t with phase := .done .unsupportedAsset })
      | some assetInfo => (db, { t with phase := .cooldownCheck assetInfo })
  | .cooldownCheck assetInfo =>
    if canClaim db now (toLowerStr t.wallet) (toUpperStr t.asset) then
      (db, { t with phase := .balanceCheck assetInfo })
    else
      (db, { t with phase := .remainingRead assetInfo })
  | .remainingRead _ =>
    let remaining := getRemainingCooldown db now (toLowerStr t.wallet) (toUpperStr t.asset)
    (db, { t with phase := .done (.cooldownActive remaining) })
  | .balanceCheck assetInfo =>
    if checkSufficientBalance env (toUpperStr t.asset) assetInfo.amount then
      (db, { t with phase := .createRec assetInfo })
    else
      (db, { t with phase := .done .insufficientPoolBalance })
  | .createRec assetInfo =>
    match createClaim db now (toLowerStr t.wallet) (toUpperStr t.asset)
        assetInfo.amount none "pending" with
    | .error _ => (db, { t with phase := .done .internalError })
    | .ok (db1, pendingClaim) => (db1, { t with phase := .sendTx assetInfo pendingClaim })
  | .sendTx assetInfo pendingClaim =>
    match sendAsset env (toUpperStr t.asset) t.wallet assetInfo.amount with
    | .error _ => (db, { t with phase := .failWrite pendingClaim })
    | .ok txHash => (db, { t with phase := .confirmWrite assetInfo pendingClaim txHash })
  | .confirmWrite assetInfo pendingClaim txHash =>
    (updateClaimStatus db pendingClaim.id "confirmed" (some txHash),
     { t with phase := .cooldownWrite assetInfo pendingClaim txHash })
  | .failWrite pendingClaim =>
    (updateClaimStatus db pendingClaim.id "failed" none,
     { t with phase := .done (.transferFailed pendingClaim.id) })
  | .cooldownWrite assetInfo pendingClaim txHash =>
    (updateCooldown db now (toLowerStr t.wallet) (toUpperStr t.asset),
     { t with phase := .done (.success pendingClaim.id assetInfo.amount txHash) })
  | .done _ => (db, t)

/-- Run two concurrent calls under a schedule: `true` steps the first call,
`false` the second; a finished call's step is a no-op. -/
def runSched (env : Env) (now : ℤ) :
    List Bool → DB → Th → Th → DB × Th × Th
  | [], db, a, b => (db, a, b)
  | true :: s, db, a, b =>
    let (db1, a1) := threadStep env now db a
    runSched env now s db1 a1 b
  | false :: s, db, a, b =>
    let (db1, b1) := threadStep env now db b
    runSched env now s db1 a b1

/-- How many `claims` rows this call has inserted so far (0 or 1): the
insert happens on the `createRec` step and is never removed. -/
def Th.insertedRows (t : Th) : ℕ :=
  match t.phase with
  | .sendTx _ _ => 1
  | .confirmWrite _ _ _ => 1
  | .failWrite _ => 1
  | .cooldownWrite _ _ _ => 1
  | .done (.success _ _ _) => 1
  | .done (.transferFailed _) => 1
  | _ => 0

/-- Whether a call has finished with the confirmed/success outcome. -/
def Th.succeeded (t : Th) : Bool :=
  match t.phase with
  | .done (.success _ _ _) => true
  | _ => false

/-- Invariant for two concurrent calls with the same request body `(W, A)`
running against a store whose claim rows all carry that key and today's
date: the store holds exactly the rows the two calls have inserted, never
more than one — the `unique_daily_claim` index admits a single row per
(wallet, asset, day). -/
def ConcInv (W A : String) (now : ℤ) (db : DB) (a b : Th) : Prop :=
  a.wallet = W ∧ a.asset = A ∧ b.wallet = W ∧ b.asset = A ∧
  db.claims.length = a.insertedRows + b.insertedRows ∧
  db.claims.length ≤ 1 ∧
  ∀ r ∈ db.claims,
    r.wallet_address = toLowerStr W ∧ r.asset = toUpperStr A ∧
    dateOf r.claimed_at = dateOf now

/-! ## Concrete scenario data (used by witnesses and counterexamples) -/

/-- A valid, already-lower-case wallet address. -/
def W0 : String := "0xaaaaaaaaaaaaaaaaaaaaaaaaaaaaaaaaaaaaaaaa"

/-- Concrete contract configuration. -/
def cfg0 : Contracts := ⟨"0xshib", "0xtreat", "0xusdt", "0xusdc"⟩

/-- Environment with an ample native balance (1000000), failing queries for
every other address, and transfers that succeed with hash `"0xhash1"`. -/
def env0 : Env :=
  ⟨cfg0,
   fun addr => if addr = "native" then some ⟨1000000, 0⟩ else none,
   fun _ _ _ => .ok "0xhash1"⟩

/-- Fresh store seeded with the active BONE asset (amount `0.1`, cooldown 8
hours), as in `DatabaseService.seedAssets`. -/
def db0 : DB :=
  ⟨[⟨"BONE", "BONE", ⟨1, 1⟩, 8, some "native", true⟩], [], [], 1⟩

/-- Environment whose TREAT pool balance reads `"4.999999999999999999"`
(18 nines — strictly below 5, but rounding to the binary64 value 5.0), with
transfers succeeding. -/
def envTreat : Env :=
  ⟨cfg0,
   fun addr => if addr = "0xtreat" then some ⟨4999999999999999999, 18⟩ else none,
   fun _ _ _ => .ok "0xhash2"⟩

/-- Store seeded with the active TREAT asset (amount `5`, cooldown 8 hours). -/
def dbTreat : DB :=
  ⟨[⟨"TREAT", "TREAT", ⟨5, 0⟩, 8, some "0xtreat", true⟩], [], [], 1⟩

/-- Environment in which every balance query fails (the service reads the
balance as `'0'`). -/
def envErr : Env := ⟨cfg0, fun _ => none, fun _ _ _ => .ok "0xhash3"⟩

/-- Store seeded with the active SHIB asset (amount `1000`, cooldown 8
hours). -/
def dbShib : DB :=
  ⟨[⟨"SHIB", "Shiba Inu", ⟨1000, 0⟩, 8, some "0xshib", true⟩], [], [], 1⟩

instance {α β : Type} [DecidableEq α] [DecidableEq β] : DecidableEq (Except α β) :=
  fun x y =>
    match x, y with
    | .ok a, .ok b =>
      if h : a = b then .isTrue (by rw [h]) else .isFalse (by simp [h])
    | .error a, .error b =>
      if h : a = b then .isTrue (by rw [h]) else .isFalse (by simp [h])
    | .ok _, .error _ => .isFalse (by simp)
    | .error _, .ok _ => .isFalse (by simp)


/-! # Theorems

## Bit length and binary64 rounding -/

lemma bitLenAux_zero (fuel : ℕ) : bitLenAux fuel 0 = 0 := by
  cases fuel <;> simp [bitLenAux]

lemma bitLenAux_spec : ∀ fuel n, n ≤ fuel →
    n < 2 ^ bitLenAux fuel n ∧ (0 < n → 2 ^ bitLenAux fuel n ≤ 2 * n) := by
  intro fuel
  induction fuel with
  | zero =>
    intro n hn
    have h0 : n = 0 := by omega
    subst h0
    simp [bitLenAux]
  | succ fuel ih =>
    intro n hn
    by_cases h0 : n = 0
    · subst h0; simp [bitLenAux]
    · have hrec : bitLenAux (fuel + 1) n = bitLenAux fuel (n / 2) + 1 := by
        simp [bitLenAux, h0]
      have hle : n / 2 ≤ fuel := by omega
      obtain ⟨ih1, ih2⟩ := ih (n / 2) hle
      rw [hrec]
      constructor
      · rw [pow_succ]; omega
      · intro _
        by_cases h2 : 0 < n / 2
        · have := ih2 h2
          rw [pow_succ]; omega
        · have hn1 : n = 1 := by omega
          subst hn1
          norm_num [bitLenAux_zero]

lemma lt_two_pow_bitLen (n : ℕ) : n < 2 ^ bitLen n :=
  (bitLenAux_spec n n le_rfl).1

lemma two_pow_bitLen_le {n : ℕ} (h : 0 < n) : 2 ^ bitLen n ≤ 2 * n :=
  (bitLenAux_spec n n le_rfl).2 h

lemma bitLen_pos {n : ℕ} (h : 0 < n) : 0 < bitLen n := by
  rcases Nat.eq_zero_or_pos (bitLen n) with h0 | h0
  · have h1 := lt_two_pow_bitLen n
    rw [h0] at h1
    omega
  · exact h0

lemma two_pow_pred_bitLen_le {n : ℕ} (h : 0 < n) : 2 ^ (bitLen n - 1) ≤ n := by
  have h1 := two_pow_bitLen_le h
  have h2 := bitLen_pos h
  have h3 : 2 ^ (bitLen n - 1) * 2 = 2 ^ bitLen n := by
    rw [← pow_succ]
    congr 1
    omega
  omega

/-- The floor-log₂ computed by `floorLog2Dec` never overshoots:
`m / 10^k ≥ 2 ^ floorLog2Dec m k` (in cross-multiplied form). -/
lemma floorLog2Dec_le {m k : ℕ} (hm : 1 ≤ m) :
    10 ^ k * 2 ^ (floorLog2Dec m k).toNat ≤ m * 2 ^ (-(floorLog2Dec m k)).toNat := by
  have hd : 10 ^ k < 2 ^ bitLen (10 ^ k) := lt_two_pow_bitLen _
  have hdg : (1 : ℕ) ≤ 10 ^ k := Nat.one_le_pow _ _ (by norm_num)
  have hbd : 0 < bitLen (10 ^ k) := bitLen_pos hdg
  have hbm : 0 < bitLen m := bitLen_pos hm
  have hm2 : 2 ^ (bitLen m - 1) ≤ m := two_pow_pred_bitLen_le hm
  simp only [floorLog2Dec]
  set bm := bitLen m
  set bd := bitLen (10 ^ k)
  by_cases hge : gePow2 m k ((bm : ℤ) - (bd : ℤ)) = true
  · rw [if_pos hge]
    simpa [gePow2] using hge
  · rw [if_neg hge]
    by_cases hc : bd + 1 ≤ bm
    · have h1 : ((bm : ℤ) - bd - 1).toNat = bm - bd - 1 := by omega
      have h2 : (-((bm : ℤ) - bd - 1)).toNat = 0 := by omega
      rw [h1, h2, pow_zero, mul_one]
      have key : 2 ^ bd * 2 ^ (bm - bd - 1) = 2 ^ (bm - 1) := by
        rw [← pow_add]
        congr 1
        omega
      calc 10 ^ k * 2 ^ (bm - bd - 1) ≤ 2 ^ bd * 2 ^ (bm - bd - 1) :=
            Nat.mul_le_mul_right _ (le_of_lt hd)
        _ = 2 ^ (bm - 1) := key
        _ ≤ m := hm2
    · have h1 : ((bm : ℤ) - bd - 1).toNat = 0 := by omega
      have h2 : (-((bm : ℤ) - bd - 1)).toNat = bd + 1 - bm := by omega
      rw [h1, h2, pow_zero, mul_one]
      have key : 2 ^ (bm - 1) * 2 ^ (bd + 1 - bm) = 2 ^ bd := by
        rw [← pow_add]
        congr 1
        omega
      calc 10 ^ k ≤ 2 ^ bd := le_of_lt hd
        _ = 2 ^ (bm - 1) * 2 ^ (bd + 1 - bm) := key.symm
        _ ≤ m * 2 ^ (bd + 1 - bm) := Nat.mul_le_mul_right _ hm2

lemma roundNE_pos {a b : ℕ} (hb : 0 < b) (hba : b ≤ a) : 0 < roundNE a b := by
  simp only [roundNE]
  have hq : 1 ≤ a / b := (Nat.one_le_div_iff hb).mpr hba
  split_ifs <;> omega

/-- A positive decimal rounds to a positive double. -/
lemma parseFloatPos_mant_pos (m k : ℕ) (hm : 1 ≤ m) : 0 < (parseFloatPos m k).mant := by
  have hkey := floorLog2Dec_le (m := m) (k := k) hm
  simp only [parseFloatPos]
  set e := floorLog2Dec m k with he
  have h1 : (-(52 - e)).toNat = (e - 52).toNat := by omega
  have hmono1 : (e - 52).toNat ≤ e.toNat := by omega
  have hmono2 : (-e).toNat ≤ (52 - e).toNat := by omega
  have hb : 0 < 10 ^ k * 2 ^ (-(52 - e)).toNat := by positivity
  have hba : 10 ^ k * 2 ^ (-(52 - e)).toNat ≤ m * 2 ^ (52 - e).toNat := by
    calc 10 ^ k * 2 ^ (-(52 - e)).toNat = 10 ^ k * 2 ^ (e - 52).toNat := by rw [h1]
      _ ≤ 10 ^ k * 2 ^ e.toNat :=
          Nat.mul_le_mul_left _ (Nat.pow_le_pow_right (by norm_num) hmono1)
      _ ≤ m * 2 ^ (-e).toNat := hkey
      _ ≤ m * 2 ^ (52 - e).toNat :=
          Nat.mul_le_mul_left _ (Nat.pow_le_pow_right (by norm_num) hmono2)
  exact_mod_cast roundNE_pos hb hba

/-- The sign of the rounded double matches the sign of the decimal. -/
lemma parseFloatDec_mant_pos_iff (d : Dec) : 0 < (parseFloatDec d).mant ↔ 0 < d.num := by
  unfold parseFloatDec
  rcases lt_trichotomy d.num 0 with h | h | h
  · rw [if_neg (by omega), if_neg (by omega)]
    have hp := parseFloatPos_mant_pos (-d.num).toNat d.scale (by omega)
    constructor
    · intro hpos
      simp only [] at hpos
      omega
    · intro hpos
      omega
  · rw [if_pos h]
    simp [h]
  · rw [if_neg (by omega), if_pos h]
    have hp := parseFloatPos_mant_pos d.num.toNat d.scale (by omega)
    exact iff_of_true hp h

/-- Comparison against the double `0`: `fple f 0` holds exactly for
non-positive mantissas. -/
lemma fple_zero_iff (f : Fp) : f.fple ⟨0, 0⟩ = true ↔ f.mant ≤ 0 := by
  unfold Fp.fple
  have hp : (0 : ℤ) < 2 ^ (f.exp - Fp.exp ⟨0, 0⟩).toNat := pow_pos (by norm_num) _
  split_ifs with h
  · simp
  · simp only [decide_eq_true_eq]
    constructor
    · intro hle
      nlinarith
    · intro hle
      nlinarith

/-! ## The balance check as a total function -/

/-- A symbol without a contract mapping makes the sufficiency check return
`false` (the `getContractAddress` throw is caught). -/
lemma checkSufficientBalance_noMapping {env : Env} {asset : String} (amount : Dec)
    {e : String} (h : getContractAddress env.contracts asset = .error e) :
    checkSufficientBalance env asset amount = false := by
  unfold checkSufficientBalance
  rw [h]

/-- When the balance query fails, the balance reads `'0'`, so the check
returns `false` exactly when the configured amount is positive. -/
lemma checkSufficientBalance_queryError {env : Env} {asset : String} {addr : String}
    (amount : Dec)
    (h : getContractAddress env.contracts asset = .ok addr)
    (hb : env.balances addr = none) :
    (checkSufficientBalance env asset amount = false ↔ 0 < amount.num) := by
  unfold checkSufficientBalance
  rw [h]
  dsimp only
  have hbal : getTokenBalance env addr = ⟨0, 0⟩ := by
    simp [getTokenBalance, hb]
  rw [hbal]
  have h0 : parseFloatDec ⟨0, 0⟩ = ⟨0, 0⟩ := rfl
  rw [h0]
  have hiff := fple_zero_iff (parseFloatDec amount)
  have hiff2 := parseFloatDec_mant_pos_iff amount
  cases hx : (parseFloatDec amount).fple ⟨0, 0⟩ with
  | false =>
    simp only [hx] at hiff
    simp only [Bool.false_eq_true, false_iff] at hiff
    simp only [true_iff]
    rw [← hiff2]
    omega
  | true =>
    simp only [hx] at hiff
    simp only [true_iff] at hiff
    simp only [Bool.true_eq_false, false_iff]
    rw [← hiff2]
    omega

/-! ## Store-level lemmas -/

lemma updateClaimStatus_cooldowns (db : DB) (i : ℕ) (st : String) (tx : Option String) :
    (updateClaimStatus db i st tx).cooldowns = db.cooldowns := rfl

lemma updateClaimStatus_assets (db : DB) (i : ℕ) (st : String) (tx : Option String) :
    (updateClaimStatus db i st tx).assets = db.assets := rfl

lemma updateCooldown_claims (db : DB) (now : ℤ) (w a : String) :
    (updateCooldown db now w a).claims = db.claims := by
  unfold updateCooldown
  split_ifs <;> rfl

lemma updateCooldown_assets (db : DB) (now : ℤ) (w a : String) :
    (updateCooldown db now w a).assets = db.assets := by
  unfold updateCooldown
  split_ifs <;> rfl

/-- What a successful `createClaim` produces. -/
lemma createClaim_ok_spec {db : DB} {now : ℤ} {w a : String} {amt : Dec}
    {tx : Option String} {st : String} {db1 : DB} {row : ClaimRow}
    (hc : createClaim db now w a amt tx st = .ok (db1, row)) :
    row = ⟨db.nextId, w, a, amt, tx, st, now⟩ ∧
    db1 = { db with claims := db.claims ++ [row], nextId := db.nextId + 1 } := by
  unfold createClaim at hc
  split_ifs at hc with h
  cases hc
  exact ⟨rfl, rfl⟩

/-- Stamping every matching row of a cooldown list leaves the first match
reading `⟨w, a, now⟩`. -/
lemma find?_map_stamp (w a : String) (now : ℤ) :
    ∀ l : List CooldownRow,
      (l.any fun c => c.wallet_address == w && c.asset == a) = true →
      (l.map fun c =>
          if c.wallet_address == w && c.asset == a then { c with last_claim_at := now }
          else c).find?
        (fun c => c.wallet_address == w && c.asset == a) = some ⟨w, a, now⟩ := by
  intro l
  induction l with
  | nil => intro hany; simp at hany
  | cons c l ih =>
    intro hany
    by_cases hc : (c.wallet_address == w && c.asset == a) = true
    · obtain ⟨hw, ha⟩ : c.wallet_address = w ∧ c.asset = a := by
        simpa [Bool.and_eq_true, beq_iff_eq] using hc
      simp only [List.map_cons, if_pos hc]
      rw [List.find?_cons_of_pos]
      · simp [hw, ha]
      · simp [hw, ha]
    · simp only [List.map_cons, if_neg hc]
      rw [List.find?_cons_of_neg
        (p := fun x : CooldownRow => x.wallet_address == w && x.asset == a) _ hc]
      apply ih
      simpa [List.any_cons, hc] using hany

/-- Upserting the cooldown stamp makes the stored entry read `now`. -/
lemma lookupCooldown_updateCooldown (db : DB) (now : ℤ) (w a : String) :
    lookupCooldown (updateCooldown db now w a) w a = some ⟨w, a, now⟩ := by
  unfold lookupCooldown updateCooldown
  by_cases hany : (db.cooldowns.any fun c => c.wallet_address == w && c.asset == a) = true
  · rw [if_pos hany]
    exact find?_map_stamp w a now db.cooldowns hany
  · rw [if_neg hany]
    simp only []
    rw [List.find?_append]
    simp only [Bool.not_eq_true] at hany
    have hnone : (db.cooldowns.find? fun c => c.wallet_address == w && c.asset == a) = none := by
      rw [List.find?_eq_none]
      exact List.any_eq_false.mp hany
    rw [hnone]
    simp

/-- After the append-then-update of one claim execution, the stored row for
the fresh id is the created row with the new status and hash. -/
lemma find?_update_append (l : List ClaimRow) (row : ClaimRow) (i : ℕ) (st : String)
    (tx : Option String) (hrow : row.id = i) (h : ∀ r ∈ l, r.id ≠ i) :
    ((l ++ [row]).map fun r =>
        if r.id == i then { r with status := st, tx_hash := tx } else r).find?
      (fun r => r.id == i) = some { row with status := st, tx_hash := tx } := by
  rw [List.map_append, List.find?_append]
  have h1 : ((l.map fun r =>
      if r.id == i then { r with status := st, tx_hash := tx } else r).find?
        (fun r => r.id == i)) = none := by
    rw [List.find?_eq_none]
    intro x hx
    rw [List.mem_map] at hx
    obtain ⟨r, hr, hmap⟩ := hx
    have hne : r.id ≠ i := h r hr
    rw [if_neg (by simpa using hne)] at hmap
    subst hmap
    simpa using hne
  rw [h1]
  simp [hrow]

/-! ## Reduction lemmas for the handler's branches -/

lemma getAsset_none_of_inactive (db : DB) (s : String)
    (h : ∀ r ∈ db.assets, r.symbol = s → r.is_active = false) :
    getAsset db s = none := by
  unfold getAsset
  rw [List.find?_eq_none]
  intro x hx hb
  obtain ⟨hs', ha'⟩ : x.symbol = s ∧ x.is_active = true := by
    simpa [Bool.and_eq_true, beq_iff_eq] using hb
  have := h x hx hs'
  simp [this] at ha'

lemma attemptClaim_reduce (env : Env) (db : DB) (now : ℤ) (W A : String)
    (hW : W ≠ "") (hA : A ≠ "") (hv : isValidAddress W = true)
    (hs : supportedAssets.contains (toUpperStr A) = true) :
    attemptClaim env db now W A = claimCore env db now W A := by
  unfold attemptClaim
  rw [if_neg (by simp [hW, hA]), if_neg (by simp [hv]), if_neg (by rw [hs]; simp)]

lemma claimCore_some (env : Env) (db : DB) (now : ℤ) (W A : String) (ai : AssetRow)
    (hget : getAsset db (toUpperStr A) = some ai) :
    claimCore env db now W A = claimSteps env db now W (toLowerStr W) (toUpperStr A) ai := by
  unfold claimCore
  rw [hget]

lemma claimSteps_cooldownActive (env : Env) (db : DB) (now : ℤ) (W nw na : String)
    (ai : AssetRow) (hc : canClaim db now nw na = false) :
    claimSteps env db now W nw na ai =
      (db, .cooldownActive (getRemainingCooldown db now nw na)) := by
  unfold claimSteps
  rw [if_pos (by simp [hc])]

lemma claimSteps_insufficient (env : Env) (db : DB) (now : ℤ) (W nw na : String)
    (ai : AssetRow) (hc : canClaim db now nw na = true)
    (hb : checkSufficientBalance env na ai.amount = false) :
    claimSteps env db now W nw na ai = (db, .insufficientPoolBalance) := by
  unfold claimSteps
  rw [if_neg (by simp [hc]), if_pos (by simp [hb])]

lemma claimSteps_createError (env : Env) (db : DB) (now : ℤ) (W nw na : String)
    (ai : AssetRow) (hc : canClaim db now nw na = true)
    (hb : checkSufficientBalance env na ai.amount = true)
    (he : createClaim db now nw na ai.amount none "pending" = .error ()) :
    claimSteps env db now W nw na ai = (db, .internalError) := by
  unfold claimSteps
  rw [if_neg (by simp [hc]), if_neg (by simp [hb]), he]

lemma claimSteps_sendError (env : Env) (db : DB) (now : ℤ) (W nw na : String)
    (ai : AssetRow) (db1 : DB) (row : ClaimRow)
    (hc : canClaim db now nw na = true)
    (hb : checkSufficientBalance env na ai.amount = true)
    (hcr : createClaim db now nw na ai.amount none "pending" = .ok (db1, row))
    (hsend : sendAsset env na W ai.amount = .error ()) :
    claimSteps env db now W nw na ai =
      (updateClaimStatus db1 row.id "failed" none, .transferFailed row.id) := by
  unfold claimSteps
  rw [if_neg (by simp [hc]), if_neg (by simp [hb]), hcr, hsend]

lemma claimSteps_sendOk (env : Env) (db : DB) (now : ℤ) (W nw na : String)
    (ai : AssetRow) (db1 : DB) (row : ClaimRow) (txh : String)
    (hc : canClaim db now nw na = true)
    (hb : checkSufficientBalance env na ai.amount = true)
    (hcr : createClaim db now nw na ai.amount none "pending" = .ok (db1, row))
    (hsend : sendAsset env na W ai.amount = .ok txh) :
    claimSteps env db now W nw na ai =
      (updateCooldown (updateClaimStatus db1 row.id "confirmed" (some txh)) now nw na,
        .success row.id ai.amount txh) := by
  unfold claimSteps
  rw [if_neg (by simp [hc]), if_neg (by simp [hb]), hcr, hsend]

/-- Case analysis on one execution of steps 3-6. -/
lemma claimSteps_shape (env : Env) (db : DB) (now : ℤ) (W nw na : String) (ai : AssetRow) :
    claimSteps env db now W nw na ai = (db, .cooldownActive (getRemainingCooldown db now nw na)) ∨
    claimSteps env db now W nw na ai = (db, .insufficientPoolBalance) ∨
    claimSteps env db now W nw na ai = (db, .internalError) ∨
    (canClaim db now nw na = true ∧
      (claimSteps env db now W nw na ai =
          (updateClaimStatus (dbAfterInsert db nw na ai now) db.nextId "failed" none,
            .transferFailed db.nextId) ∨
        ∃ txh, claimSteps env db now W nw na ai =
          (updateCooldown
            (updateClaimStatus (dbAfterInsert db nw na ai now) db.nextId "confirmed" (some txh))
            now nw na,
            .success db.nextId ai.amount txh))) := by
  cases hc : canClaim db now nw na with
  | false => exact .inl (claimSteps_cooldownActive env db now W nw na ai hc)
  | true =>
    cases hb : checkSufficientBalance env na ai.amount with
    | false => exact .inr (.inl (claimSteps_insufficient env db now W nw na ai hc hb))
    | true =>
      cases hcr : createClaim db now nw na ai.amount none "pending" with
      | error e =>
        cases e
        exact .inr (.inr (.inl (claimSteps_createError env db now W nw na ai hc hb hcr)))
      | ok p =>
        obtain ⟨db1, row⟩ := p
        obtain ⟨hrow, hdb1⟩ := createClaim_ok_spec hcr
        cases hsend : sendAsset env na W ai.amount with
        | error e =>
          cases e
          refine .inr (.inr (.inr ⟨rfl, .inl ?_⟩))
          rw [claimSteps_sendError env db now W nw na ai db1 row hc hb hcr hsend,
            hdb1, hrow]
          rfl
        | ok txh =>
          refine .inr (.inr (.inr ⟨rfl, .inr ⟨txh, ?_⟩⟩))
          rw [claimSteps_sendOk env db now W nw na ai db1 row txh hc hb hcr hsend,
            hdb1, hrow]
          rfl

/-- Every call lands in one of two shapes: a rejection that leaves the store
untouched (and is neither `success` nor `transferFailed`), or a claim
execution that appended the pending row and finished it as `failed` or
`confirmed`. -/
lemma attemptClaim_shape (env : Env) (db : DB) (now : ℤ) (W A : String) :
    ((attemptClaim env db now W A).1 = db ∧
      (∀ cid amt txh, (attemptClaim env db now W A).2 ≠ .success cid amt txh) ∧
      (∀ cid, (attemptClaim env db now W A).2 ≠ .transferFailed cid)) ∨
    (∃ ai, getAsset db (toUpperStr A) = some ai ∧
      canClaim db now (toLowerStr W) (toUpperStr A) = true ∧
      (attemptClaim env db now W A =
        (updateClaimStatus (dbAfterInsert db (toLowerStr W) (toUpperStr A) ai now)
          db.nextId "failed" none, .transferFailed db.nextId) ∨
       ∃ txh, attemptClaim env db now W A =
        (updateCooldown
          (updateClaimStatus (dbAfterInsert db (toLowerStr W) (toUpperStr A) ai now)
            db.nextId "confirmed" (some txh))
          now (toLowerStr W) (toUpperStr A), .success db.nextId ai.amount txh))) := by
  unfold attemptClaim
  split_ifs with h1 h2 h3
  all_goals try exact .inl ⟨rfl, by simp, by simp⟩
  have hopt : getAsset db (toUpperStr A) = none ∨
      ∃ ai, getAsset db (toUpperStr A) = some ai := by
    cases getAsset db (toUpperStr A) with
    | none => exact .inl rfl
    | some ai => exact .inr ⟨ai, rfl⟩
  rcases hopt with hget | ⟨ai, hget⟩
  · have heq : claimCore env db now W A = (db, .unsupportedAsset) := by
      unfold claimCore
      rw [hget]
    rw [heq]
    exact .inl ⟨rfl, by simp, by simp⟩
  · have hcc := claimCore_some env db now W A ai hget
    rw [hcc]
    rcases claimSteps_shape env db now W (toLowerStr W) (toUpperStr A) ai with
      h | h | h | ⟨hcT, hrest⟩
    · rw [h]
      exact .inl ⟨rfl, by simp, by simp⟩
    · rw [h]
      exact .inl ⟨rfl, by simp, by simp⟩
    · rw [h]
      exact .inl ⟨rfl, by simp, by simp⟩
    · exact .inr ⟨ai, hget, hcT, hrest⟩

/-- When the cooldown check passes over a registry whose cooldowns are
non-negative and whose asset table can resolve the symbol, the stored entry
(if any) is strictly older than `now`. -/
lemma canClaim_true_lookup (db : DB) (now : ℤ) (nw na : String)
    (hH : ∀ ar ∈ db.assets, 0 ≤ ar.cooldown_hours)
    (hA : (db.assets.find? fun r => r.symbol == na).isSome)
    (hc : canClaim db now nw na = true) :
    lookupCooldown db nw na = none ∨
    ∃ c, lookupCooldown db nw na = some c ∧ c.last_claim_at < now := by
  unfold canClaim cooldownJoin at hc
  unfold lookupCooldown
  cases hcf : db.cooldowns.find? fun c => c.wallet_address == nw && c.asset == na with
  | none => exact .inl rfl
  | some c =>
    right
    refine ⟨c, rfl, ?_⟩
    cases haf : db.assets.find? fun r => r.symbol == na with
    | none =>
      rw [haf] at hA
      simp at hA
    | some ar =>
      rw [hcf, haf] at hc
      simp only [decide_eq_true_eq] at hc
      have hmem : ar ∈ db.assets := List.mem_of_find?_eq_some haf
      have hnn := hH ar hmem
      omega

/-! ## Claim C3 — eligibility boundary -/

/-- Claim C3: with an existing cooldown entry (and the asset resolvable in
the registry), `canClaim` returns true exactly when the elapsed time since
the last claim strictly exceeds `cooldown_hours` in milliseconds — at
exactly the boundary it is still false — and it returns true when no prior
entry exists. -/
theorem claim3_eligibility (db : DB) (now : ℤ) (w a : String) (ar : AssetRow)
    (har : (db.assets.find? fun r => r.symbol == a) = some ar) :
    ((db.cooldowns.find? fun c => c.wallet_address == w && c.asset == a) = none →
      canClaim db now w a = true) ∧
    (∀ c, (db.cooldowns.find? fun c => c.wallet_address == w && c.asset == a) = some c →
      (canClaim db now w a = true ↔
        ar.cooldown_hours * 60 * 60 * 1000 < now - c.last_claim_at)) := by
  constructor
  · intro hn
    unfold canClaim cooldownJoin
    rw [hn]
  · intro c hcf
    unfold canClaim cooldownJoin
    rw [hcf, har]
    simp

/-- Witness for C3 at the seeded BONE asset (8 h cooldown): an entry stamped
at `0` makes the wallet eligible at `28800001` ms but not at `28800000` ms
(the exact boundary), and a fresh wallet is always eligible. -/
theorem claim3_eligibility_witness :
    (canClaim { db0 with cooldowns := [⟨W0, "BONE", 0⟩] } 28800001 W0 "BONE" = true ↔
      (8 : ℤ) * 60 * 60 * 1000 < 28800001 - 0) ∧
    (canClaim { db0 with cooldowns := [⟨W0, "BONE", 0⟩] } 28800000 W0 "BONE" = true ↔
      (8 : ℤ) * 60 * 60 * 1000 < 28800000 - 0) ∧
    canClaim db0 28800000 W0 "BONE" = true := by
  refine ⟨?_, ?_, ?_⟩
  · exact (claim3_eligibility { db0 with cooldowns := [⟨W0, "BONE", 0⟩] } 28800001 W0 "BONE"
      ⟨"BONE", "BONE", ⟨1, 1⟩, 8, some "native", true⟩ (by decide)).2 ⟨W0, "BONE", 0⟩ (by decide)
  · exact (claim3_eligibility { db0 with cooldowns := [⟨W0, "BONE", 0⟩] } 28800000 W0 "BONE"
      ⟨"BONE", "BONE", ⟨1, 1⟩, 8, some "native", true⟩ (by decide)).2 ⟨W0, "BONE", 0⟩ (by decide)
  · exact (claim3_eligibility db0 28800000 W0 "BONE"
      ⟨"BONE", "BONE", ⟨1, 1⟩, 8, some "native", true⟩ (by decide)).1 (by decide)

/-! ## Claim C4 — terminal states are not protected -/

/-- Counterexample to claim C4: `updateClaimStatus` on a claim already in
the terminal state `confirmed` (with a stored transfer hash) silently
overwrites both the status and the transfer hash — no conflict is reported
and the claim transitions out of its terminal state. -/
theorem claim4_counterexample :
    updateClaimStatus
        ⟨[], [], [⟨1, W0, "BONE", ⟨1, 1⟩, some "0xabc", "confirmed", 0⟩], 2⟩
        1 "failed" none =
      ⟨[], [], [⟨1, W0, "BONE", ⟨1, 1⟩, none, "failed", 0⟩], 2⟩ := by
  decide

/-- Claim C4 as amended: `updateClaimStatus` is an unconditional overwrite —
for any stored claim row with the targeted id, whatever its current status
(including the terminal `confirmed` and `failed`), the update stores exactly
the new status and the new (possibly NULL) transfer hash, and every other
row is untouched. -/
theorem claim4_amended (db : DB) (i : ℕ) (st : String) (tx : Option String)
    (r : ClaimRow) (hr : r ∈ db.claims) :
    (r.id = i →
      { r with status := st, tx_hash := tx } ∈ (updateClaimStatus db i st tx).claims) ∧
    (r.id ≠ i → r ∈ (updateClaimStatus db i st tx).claims) := by
  constructor
  · intro hid
    unfold updateClaimStatus
    simp only []
    exact List.mem_map.mpr ⟨r, hr, by rw [if_pos (by simp [hid])]⟩
  · intro hne
    unfold updateClaimStatus
    simp only []
    exact List.mem_map.mpr ⟨r, hr, by rw [if_neg (by simpa using hne)]⟩

/-- Witness for the amended C4: the `confirmed` row with hash `"0xabc"` is
rewritten to a `failed` row with no hash. -/
theorem claim4_amended_witness :
    (⟨1, W0, "BONE", ⟨1, 1⟩, none, "failed", 0⟩ : ClaimRow) ∈
      (updateClaimStatus
        ⟨[], [], [⟨1, W0, "BONE", ⟨1, 1⟩, some "0xabc", "confirmed", 0⟩], 2⟩
        1 "failed" none).claims :=
  (claim4_amended _ 1 "failed" none ⟨1, W0, "BONE", ⟨1, 1⟩, some "0xabc", "confirmed", 0⟩
    (by decide)).1 rfl

/-! ## Claim C6 — unsupported or inactive assets -/

/-- Claim C6: a request that passes validation but whose symbol is unknown
to the registry or known-but-inactive returns the `UnsupportedAsset`
outcome and leaves the entire store unchanged (zero claim records). -/
theorem claim6_unsupported (env : Env) (db : DB) (now : ℤ) (W A : String)
    (hW : W ≠ "") (hA : A ≠ "") (hv : isValidAddress W = true)
    (hs : supportedAssets.contains (toUpperStr A) = true)
    (hin : ∀ r ∈ db.assets, r.symbol = toUpperStr A → r.is_active = false) :
    attemptClaim env db now W A = (db, .unsupportedAsset) := by
  have hget : getAsset db (toUpperStr A) = none := getAsset_none_of_inactive db _ hin
  rw [attemptClaim_reduce env db now W A hW hA hv hs]
  unfold claimCore
  rw [hget]

/-- Witness for C6: `ETH` passes the request whitelist but is not seeded in
the registry, so the call returns `UnsupportedAsset` with the store
untouched. -/
theorem claim6_unsupported_witness :
    attemptClaim env0 db0 1700000000000 W0 "ETH" = (db0, .unsupportedAsset) :=
  claim6_unsupported env0 db0 1700000000000 W0 "ETH" (by decide) (by decide)
    (by decide) (by decide) (by decide)

/-! ## Claim C8 — the registry does not distinguish unknown from inactive -/

/-- Counterexample to claim C8: `getAsset` issues
`SELECT ... WHERE symbol = $1 AND is_active = true`, so a known-but-inactive
symbol and a completely unknown symbol produce the identical result `null` —
the lookup provides no diagnostic distinction between the two. -/
theorem claim8_counterexample :
    getAsset ⟨[⟨"TREAT", "TREAT", ⟨5, 0⟩, 8, some "0xtreat", false⟩], [], [], 1⟩ "TREAT" =
      getAsset ⟨[], [], [], 1⟩ "TREAT" ∧
    getAsset ⟨[], [], [], 1⟩ "TREAT" = none := by
  decide

/-- Claim C8 as amended: the registry lookup collapses "unknown" and
"known-but-inactive" — whenever every row carrying the symbol is inactive
(vacuously so for an unknown symbol), `getAsset` returns `none`, the same
value in both situations. -/
theorem claim8_amended (db : DB) (s : String)
    (h : ∀ r ∈ db.assets, r.symbol = s → r.is_active = false) :
    getAsset db s = none :=
  getAsset_none_of_inactive db s h

/-- Witness for the amended C8 at an inactive TREAT row. -/
theorem claim8_amended_witness :
    getAsset ⟨[⟨"TREAT", "TREAT", ⟨5, 0⟩, 8, some "0xtreat", false⟩], [], [], 1⟩ "TREAT" =
      none :=
  claim8_amended _ "TREAT" (by decide)

/-! ## Claim C5 — the balance gate -/

/-- Counterexample to claim C5 as stated: with the TREAT pool balance
reading `"4.999999999999999999"` — strictly below the configured claim
amount `"5"` in exact decimal terms — the call does *not* return
`InsufficientPoolBalance`: `parseFloat` rounds both strings to the binary64
value 5.0, the check passes, a claim record is created and the transfer is
dispatched and confirmed. -/
theorem claim5_counterexample :
    Dec.declt ⟨4999999999999999999, 18⟩ ⟨5, 0⟩ = true ∧
    envTreat.balances "0xtreat" = some ⟨4999999999999999999, 18⟩ ∧
    attemptClaim envTreat dbTreat 1700000000000 W0 "TREAT" =
      ({ dbTreat with
          claims := [⟨1, W0, "TREAT", ⟨5, 0⟩, some "0xhash2", "confirmed", 1700000000000⟩],
          cooldowns := [⟨W0, "TREAT", 1700000000000⟩],
          nextId := 2 },
        .success 1 ⟨5, 0⟩ "0xhash2") := by
  decide

/-- Claim C5 as amended: for every call that the code's own balance
comparison (`parseFloat(balance) >= parseFloat(amount)`) judges short, the
call returns `InsufficientPoolBalance` with the store untouched (zero claim
records created, cooldown unchanged); and the balance check runs strictly
after the cooldown check — an ineligible wallet receives `CooldownActive`
regardless of the environment's balances — and strictly before any claim
record is created. -/
theorem claim5_amended (env : Env) (db : DB) (now : ℤ) (W A : String) (ai : AssetRow)
    (hW : W ≠ "") (hA : A ≠ "") (hv : isValidAddress W = true)
    (hs : supportedAssets.contains (toUpperStr A) = true)
    (hget : getAsset db (toUpperStr A) = some ai) :
    (canClaim db now (toLowerStr W) (toUpperStr A) = true →
      checkSufficientBalance env (toUpperStr A) ai.amount = false →
      attemptClaim env db now W A = (db, .insufficientPoolBalance)) ∧
    (canClaim db now (toLowerStr W) (toUpperStr A) = false →
      attemptClaim env db now W A =
        (db, .cooldownActive (getRemainingCooldown db now (toLowerStr W) (toUpperStr A)))) := by
  rw [attemptClaim_reduce env db now W A hW hA hv hs,
    claimCore_some env db now W A ai hget]
  constructor
  · intro hc hb
    exact claimSteps_insufficient env db now W (toLowerStr W) (toUpperStr A) ai hc hb
  · intro hc
    exact claimSteps_cooldownActive env db now W (toLowerStr W) (toUpperStr A) ai hc

/-- Witness for the amended C5: a SHIB call whose balance query fails is
rejected with `InsufficientPoolBalance` and an untouched store, and the same
wallet inside the cooldown window receives `CooldownActive` under the very
same environment. -/
theorem claim5_amended_witness :
    attemptClaim envErr dbShib 1700000000000 W0 "SHIB" =
      (dbShib, .insufficientPoolBalance) ∧
    attemptClaim envErr { dbShib with cooldowns := [⟨W0, "SHIB", 1700000000000⟩] }
        1700000000000 W0 "SHIB" =
      ({ dbShib with cooldowns := [⟨W0, "SHIB", 1700000000000⟩] },
        .cooldownActive 28800000) := by
  constructor
  · exact (claim5_amended envErr dbShib 1700000000000 W0 "SHIB"
      ⟨"SHIB", "Shiba Inu", ⟨1000, 0⟩, 8, some "0xshib", true⟩
      (by decide) (by decide) (by decide) (by decide) (by decide)).1 (by decide) (by decide)
  · exact (claim5_amended envErr { dbShib with cooldowns := [⟨W0, "SHIB", 1700000000000⟩] }
      1700000000000 W0 "SHIB"
      ⟨"SHIB", "Shiba Inu", ⟨1000, 0⟩, 8, some "0xshib", true⟩
      (by decide) (by decide) (by decide) (by decide) (by decide)).2 (by decide)

/-! ## Claim C9 — the comparison is floating point, not exact decimal -/

/-- Claim C9 fails on the code (supporting theorem for the divergence):
the decimal string `"4.999999999999999999"` is strictly below `"5"` under
the exact decimal comparison the spec prescribes, yet `parseFloat` maps the
two strings to the same binary64 double, so the code's
`checkSufficientBalance` accepts the balance as sufficient. -/
theorem claim9_float_comparison :
    Dec.declt ⟨4999999999999999999, 18⟩ ⟨5, 0⟩ = true ∧
    parseFloatDec ⟨4999999999999999999, 18⟩ = parseFloatDec ⟨5, 0⟩ ∧
    checkSufficientBalance envTreat "TREAT" ⟨5, 0⟩ = true := by
  decide

/-! ## Claim C10 — totality of the sufficiency check -/

/-- Counterexample to claim C10 as stated: a balance-query error does not
always make the check return `false` — with a (degenerate) configured
amount of `0`, the caught error leaves the balance reading `'0'`, and
`0 >= 0` makes the check return `true`. -/
theorem claim10_counterexample :
    envErr.balances cfg0.SHIB = none ∧
    checkSufficientBalance envErr "SHIB" ⟨0, 0⟩ = true := by
  decide

/-- Claim C10 as amended: the sufficiency check is total by construction —
every thrown error is caught.  A symbol with no contract mapping always
yields `false`; a failed balance query makes the balance read `'0'`, which
is insufficient exactly when the configured amount is positive (for a
non-positive amount the check passes despite the error); and whenever the
check yields `false`, an eligible call returns `InsufficientPoolBalance`
with the store untouched, not a transfer failure or a fatal error. -/
theorem claim10_amended :
    (∀ (env : Env) (asset : String) (amount : Dec) (e : String),
        getContractAddress env.contracts asset = .error e →
        checkSufficientBalance env asset amount = false) ∧
    (∀ (env : Env) (asset addr : String) (amount : Dec),
        getContractAddress env.contracts asset = .ok addr →
        env.balances addr = none →
        (checkSufficientBalance env asset amount = false ↔ 0 < amount.num)) ∧
    (∀ (env : Env) (db : DB) (now : ℤ) (W A : String) (ai : AssetRow),
        W ≠ "" → A ≠ "" → isValidAddress W = true →
        supportedAssets.contains (toUpperStr A) = true →
        getAsset db (toUpperStr A) = some ai →
        canClaim db now (toLowerStr W) (toUpperStr A) = true →
        checkSufficientBalance env (toUpperStr A) ai.amount = false →
        attemptClaim env db now W A = (db, .insufficientPoolBalance)) := by
  refine ⟨?_, ?_, ?_⟩
  · intro env asset amount e h
    exact checkSufficientBalance_noMapping amount h
  · intro env asset addr amount h hb
    exact checkSufficientBalance_queryError amount h hb
  · intro env db now W A ai hW hA hv hs hget hc hb
    rw [attemptClaim_reduce env db now W A hW hA hv hs,
      claimCore_some env db now W A ai hget]
    exact claimSteps_insufficient env db now W (toLowerStr W) (toUpperStr A) ai hc hb

/-- Witness for the amended C10: `ETH` (no contract-address case) always
fails the check; a failed SHIB balance query fails the check exactly because
the configured amount 1000 is positive; and the resulting call outcome is
`InsufficientPoolBalance` with the store untouched. -/
theorem claim10_amended_witness :
    checkSufficientBalance env0 "ETH" ⟨1, 0⟩ = false ∧
    (checkSufficientBalance envErr "SHIB" ⟨1000, 0⟩ = false ↔ (0 : ℤ) < 1000) ∧
    attemptClaim envErr dbShib 1700000000000 W0 "SHIB" =
      (dbShib, .insufficientPoolBalance) := by
  refine ⟨?_, ?_, ?_⟩
  · exact claim10_amended.1 env0 "ETH" ⟨1, 0⟩ ("Unsupported asset: " ++ "ETH") (by decide)
  · exact claim10_amended.2.1 envErr "SHIB" cfg0.SHIB ⟨1000, 0⟩ (by decide) rfl
  · exact claim10_amended.2.2 envErr dbShib 1700000000000 W0 "SHIB"
      ⟨"SHIB", "Shiba Inu", ⟨1000, 0⟩, 8, some "0xshib", true⟩
      (by decide) (by decide) (by decide) (by decide) (by decide) (by decide) (by decide)

/-! ## Claims C2 and C7 — what one execution writes -/

lemma getAsset_some_symbol_isSome (db : DB) (na : String) (ai : AssetRow)
    (hget : getAsset db na = some ai) :
    (db.assets.find? fun r => r.symbol == na).isSome := by
  unfold getAsset at hget
  have hmem := List.mem_of_find?_eq_some hget
  have hp := List.find?_some hget
  rw [List.find?_isSome]
  refine ⟨ai, hmem, ?_⟩
  simp only [Bool.and_eq_true] at hp
  exact hp.1

lemma claimStatus_updateCooldown (db : DB) (now : ℤ) (w a : String) (i : ℕ) :
    claimStatus (updateCooldown db now w a) i = claimStatus db i := by
  unfold claimStatus
  rw [updateCooldown_claims]

lemma claimAmount_updateCooldown (db : DB) (now : ℤ) (w a : String) (i : ℕ) :
    claimAmount (updateCooldown db now w a) i = claimAmount db i := by
  unfold claimAmount
  rw [updateCooldown_claims]

/-- After one execution's pending insert and status update, the stored
status for the fresh id is the written one. -/
lemma claimStatus_finish (db : DB) (nw na : String) (ai : AssetRow) (now : ℤ)
    (st : String) (tx : Option String)
    (hfresh : ∀ r ∈ db.claims, r.id ≠ db.nextId) :
    claimStatus (updateClaimStatus (dbAfterInsert db nw na ai now) db.nextId st tx)
      db.nextId = some st := by
  unfold claimStatus
  rw [show (updateClaimStatus (dbAfterInsert db nw na ai now) db.nextId st tx).claims =
      (db.claims ++ [pendingRow db nw na ai now]).map
        (fun r => if r.id == db.nextId then { r with status := st, tx_hash := tx } else r)
    from rfl]
  rw [find?_update_append db.claims (pendingRow db nw na ai now) db.nextId st tx rfl hfresh]
  rfl

/-- Counterpart of `claimStatus_finish` for the stored amount: the update
leaves the amount copied at creation in place. -/
lemma claimAmount_finish (db : DB) (nw na : String) (ai : AssetRow) (now : ℤ)
    (st : String) (tx : Option String)
    (hfresh : ∀ r ∈ db.claims, r.id ≠ db.nextId) :
    claimAmount (updateClaimStatus (dbAfterInsert db nw na ai now) db.nextId st tx)
      db.nextId = some ai.amount := by
  unfold claimAmount
  rw [show (updateClaimStatus (dbAfterInsert db nw na ai now) db.nextId st tx).claims =
      (db.claims ++ [pendingRow db nw na ai now]).map
        (fun r => if r.id == db.nextId then { r with status := st, tx_hash := tx } else r)
    from rfl]
  rw [find?_update_append db.claims (pendingRow db nw na ai now) db.nextId st tx rfl hfresh]
  rfl

/-- Claim C2: over a registry with non-negative cooldowns and a store whose
claim ids are below the next serial value, one `attemptClaim` execution
changes the stored cooldown entry for its (wallet, asset) key exactly when
it ends in the success outcome — whose claim the execution left
`confirmed` — and a transfer failure leaves every cooldown entry untouched
while the claim is left `failed`. -/
theorem claim2_cooldown_iff (env : Env) (db : DB) (now : ℤ) (W A : String)
    (hH : ∀ ar ∈ db.assets, 0 ≤ ar.cooldown_hours)
    (hfresh : ∀ r ∈ db.claims, r.id ≠ db.nextId) :
    ((lookupCooldown (attemptClaim env db now W A).1 (toLowerStr W) (toUpperStr A) ≠
        lookupCooldown db (toLowerStr W) (toUpperStr A)) ↔
      ∃ cid amt txh, (attemptClaim env db now W A).2 = .success cid amt txh) ∧
    (∀ cid amt txh, (attemptClaim env db now W A).2 = .success cid amt txh →
      claimStatus (attemptClaim env db now W A).1 cid = some "confirmed") ∧
    (∀ cid, (attemptClaim env db now W A).2 = .transferFailed cid →
      (attemptClaim env db now W A).1.cooldowns = db.cooldowns ∧
      claimStatus (attemptClaim env db now W A).1 cid = some "failed") := by
  rcases attemptClaim_shape env db now W A with ⟨hdb, hns, hnf⟩ | ⟨ai, hget, hcT, hres⟩
  · refine ⟨?_, ?_, ?_⟩
    · constructor
      · intro h
        exact absurd (by rw [hdb]) h
      · rintro ⟨cid, amt, txh, h⟩
        exact absurd h (hns cid amt txh)
    · intro cid amt txh h
      exact absurd h (hns cid amt txh)
    · intro cid h
      exact absurd h (hnf cid)
  · rcases hres with hfail | ⟨txh0, hsucc⟩
    · refine ⟨?_, ?_, ?_⟩
      · constructor
        · intro h
          exfalso
          apply h
          rw [hfail]
          unfold lookupCooldown
          rw [show (updateClaimStatus (dbAfterInsert db (toLowerStr W) (toUpperStr A) ai now)
              db.nextId "failed" none, Outcome.transferFailed db.nextId).1.cooldowns =
            db.cooldowns from rfl]
        · rintro ⟨cid, amt, txh, h⟩
          rw [hfail] at h
          simp at h
      · intro cid amt txh h
        rw [hfail] at h
        simp at h
      · intro cid h
        rw [hfail] at h
        simp only [] at h
        have hcid : db.nextId = cid := by
          cases h
          rfl
        subst hcid
        refine ⟨?_, ?_⟩
        · rw [hfail]
          rfl
        · rw [hfail]
          exact claimStatus_finish db (toLowerStr W) (toUpperStr A) ai now "failed" none hfresh
    · refine ⟨?_, ?_, ?_⟩
      · constructor
        · intro _
          exact ⟨db.nextId, ai.amount, txh0, by rw [hsucc]⟩
        · intro _
          rw [hsucc]
          have hnew := lookupCooldown_updateCooldown
            (updateClaimStatus (dbAfterInsert db (toLowerStr W) (toUpperStr A) ai now)
              db.nextId "confirmed" (some txh0)) now (toLowerStr W) (toUpperStr A)
          rw [show (updateCooldown
              (updateClaimStatus (dbAfterInsert db (toLowerStr W) (toUpperStr A) ai now)
                db.nextId "confirmed" (some txh0)) now (toLowerStr W) (toUpperStr A),
              Outcome.success db.nextId ai.amount txh0).1 =
            updateCooldown
              (updateClaimStatus (dbAfterInsert db (toLowerStr W) (toUpperStr A) ai now)
                db.nextId "confirmed" (some txh0)) now (toLowerStr W) (toUpperStr A) from rfl]
          rw [hnew]
          have hAf := getAsset_some_symbol_isSome db (toUpperStr A) ai hget
          rcases canClaim_true_lookup db now (toLowerStr W) (toUpperStr A) hH hAf hcT with
            hnone | ⟨c, hc, hlt⟩
          · rw [hnone]
            simp
          · rw [hc]
            intro heq
            have hinj := Option.some.inj heq
            have : c.last_claim_at = now := by rw [← hinj]
            omega
      · intro cid amt txh h
        rw [hsucc] at h
        simp only [Outcome.success.injEq] at h
        obtain ⟨h1, h2, h3⟩ := h
        subst h1
        rw [hsucc]
        rw [show (updateCooldown
            (updateClaimStatus (dbAfterInsert db (toLowerStr W) (toUpperStr A) ai now)
              db.nextId "confirmed" (some txh0)) now (toLowerStr W) (toUpperStr A),
            Outcome.success db.nextId ai.amount txh0).1 =
          updateCooldown
            (updateClaimStatus (dbAfterInsert db (toLowerStr W) (toUpperStr A) ai now)
              db.nextId "confirmed" (some txh0)) now (toLowerStr W) (toUpperStr A) from rfl]
        rw [claimStatus_updateCooldown]
        exact claimStatus_finish db (toLowerStr W) (toUpperStr A) ai now "confirmed"
          (some txh0) hfresh
      · intro cid h
        rw [hsucc] at h
        simp at h

/-- Witness for C2 at the fresh BONE scenario. -/
theorem claim2_cooldown_iff_witness :
    (lookupCooldown (attemptClaim env0 db0 1700000000000 W0 "BONE").1
        (toLowerStr W0) (toUpperStr "BONE") ≠
      lookupCooldown db0 (toLowerStr W0) (toUpperStr "BONE")) ↔
    ∃ cid amt txh, (attemptClaim env0 db0 1700000000000 W0 "BONE").2 =
      .success cid amt txh :=
  (claim2_cooldown_iff env0 db0 1700000000000 W0 "BONE" (by decide) (by decide)).1

/-- Claim C7: the amount recorded on a claim at creation is the asset's
configured amount at that moment and is never changed afterwards — the
status transitions rewrite only status and transfer hash (ids, wallets,
assets and amounts of every stored row are untouched), and registry
mutations (`seedAssets` upserts) touch no claim row at all. -/
theorem claim7_amount_immutable (env : Env) (db : DB) (now : ℤ) (W A : String)
    (hfresh : ∀ r ∈ db.claims, r.id ≠ db.nextId) :
    (∀ cid amt txh, (attemptClaim env db now W A).2 = .success cid amt txh →
      ∃ ai, getAsset db (toUpperStr A) = some ai ∧ amt = ai.amount ∧
        claimAmount (attemptClaim env db now W A).1 cid = some ai.amount) ∧
    (∀ cid, (attemptClaim env db now W A).2 = .transferFailed cid →
      ∃ ai, getAsset db (toUpperStr A) = some ai ∧
        claimAmount (attemptClaim env db now W A).1 cid = some ai.amount) ∧
    (∀ (db2 : DB) (i : ℕ) (st : String) (tx : Option String),
      (updateClaimStatus db2 i st tx).claims.map
          (fun r => (r.id, r.wallet_address, r.asset, r.amount)) =
        db2.claims.map fun r => (r.id, r.wallet_address, r.asset, r.amount)) ∧
    (∀ (db3 : DB) (a : AssetRow), (upsertAsset db3 a).claims = db3.claims) := by
  refine ⟨?_, ?_, ?_, ?_⟩
  · intro cid amt txh h
    rcases attemptClaim_shape env db now W A with ⟨hdb, hns, hnf⟩ | ⟨ai, hget, hcT, hres⟩
    · exact absurd h (hns cid amt txh)
    · rcases hres with hfail | ⟨txh0, hsucc⟩
      · rw [hfail] at h
        simp at h
      · rw [hsucc] at h
        simp only [Outcome.success.injEq] at h
        obtain ⟨h1, h2, h3⟩ := h
        subst h1
        refine ⟨ai, hget, h2.symm, ?_⟩
        rw [hsucc]
        rw [show (updateCooldown
            (updateClaimStatus (dbAfterInsert db (toLowerStr W) (toUpperStr A) ai now)
              db.nextId "confirmed" (some txh0)) now (toLowerStr W) (toUpperStr A),
            Outcome.success db.nextId ai.amount txh0).1 =
          updateCooldown
            (updateClaimStatus (dbAfterInsert db (toLowerStr W) (toUpperStr A) ai now)
              db.nextId "confirmed" (some txh0)) now (toLowerStr W) (toUpperStr A) from rfl]
        rw [claimAmount_updateCooldown]
        exact claimAmount_finish db (toLowerStr W) (toUpperStr A) ai now "confirmed"
          (some txh0) hfresh
  · intro cid h
    rcases attemptClaim_shape env db now W A with ⟨hdb, hns, hnf⟩ | ⟨ai, hget, hcT, hres⟩
    · exact absurd h (hnf cid)
    · rcases hres with hfail | ⟨txh0, hsucc⟩
      · rw [hfail] at h
        simp only [] at h
        have hcid : db.nextId = cid := by
          cases h
          rfl
        subst hcid
        refine ⟨ai, hget, ?_⟩
        rw [hfail]
        exact claimAmount_finish db (toLowerStr W) (toUpperStr A) ai now "failed" none hfresh
      · rw [hsucc] at h
        simp at h
  · intro db2 i st tx
    unfold updateClaimStatus
    simp only []
    rw [List.map_map]
    apply List.map_congr_left
    intro r _
    by_cases h : (r.id == i) = true
    · simp [Function.comp, h]
    · simp [Function.comp, h]
  · intro db3 a
    unfold upsertAsset
    split_ifs <;> rfl

/-- Witness for C7 at the fresh BONE scenario: the confirmed claim carries
BONE's configured amount `0.1`. -/
theorem claim7_amount_immutable_witness :
    ∃ ai, getAsset db0 (toUpperStr "BONE") = some ai ∧ (⟨1, 1⟩ : Dec) = ai.amount ∧
      claimAmount (attemptClaim env0 db0 1700000000000 W0 "BONE").1 1 = some ai.amount :=
  (claim7_amount_immutable env0 db0 1700000000000 W0 "BONE" (by decide)).1
    1 ⟨1, 1⟩ "0xhash1" (by decide)

/-! ## Claim C1 — concurrency -/

lemma updateClaimStatus_length (db : DB) (i : ℕ) (st : String) (tx : Option String) :
    (updateClaimStatus db i st tx).claims.length = db.claims.length := by
  unfold updateClaimStatus
  simp

lemma mem_updateClaimStatus (db : DB) (i : ℕ) (st : String) (tx : Option String)
    (r' : ClaimRow) (h : r' ∈ (updateClaimStatus db i st tx).claims) :
    ∃ r ∈ db.claims, r'.wallet_address = r.wallet_address ∧ r'.asset = r.asset ∧
      r'.claimed_at = r.claimed_at := by
  unfold updateClaimStatus at h
  simp only [List.mem_map] at h
  obtain ⟨r, hr, hmap⟩ := h
  refine ⟨r, hr, ?_⟩
  by_cases hid : (r.id == i) = true
  · rw [if_pos hid] at hmap
    subst hmap
    exact ⟨rfl, rfl, rfl⟩
  · rw [if_neg hid] at hmap
    subst hmap
    exact ⟨rfl, rfl, rfl⟩

lemma ConcInv_swap {W A : String} {now : ℤ} {db : DB} {a b : Th}
    (h : ConcInv W A now db a b) : ConcInv W A now db b a := by
  obtain ⟨haw, haa, hbw, hba, hlen, hle, hkey⟩ := h
  exact ⟨hbw, hba, haw, haa, by omega, hle, hkey⟩

/-- One atomic step of either call preserves the concurrency invariant. -/
lemma threadStep_preserves (env : Env) (now : ℤ) (W A : String) (db : DB) (a b : Th)
    (hInv : ConcInv W A now db a b) :
    ConcInv W A now (threadStep env now db a).1 (threadStep env now db a).2 b := by
  obtain ⟨haw, haa, hbw, hba, hlen, hle, hkey⟩ := hInv
  cases a with
  | mk wa aa ph =>
    simp only [] at haw haa
    subst haw
    subst haa
    cases ph with
    | start =>
      unfold threadStep
      simp only []
      split_ifs with h1 h2 h3 <;>
        first
          | exact ⟨rfl, rfl, hbw, hba, hlen, hle, hkey⟩
          | (split <;> exact ⟨rfl, rfl, hbw, hba, hlen, hle, hkey⟩)
    | cooldownCheck ai =>
      unfold threadStep
      simp only []
      split_ifs with h1 <;> exact ⟨rfl, rfl, hbw, hba, hlen, hle, hkey⟩
    | remainingRead ai =>
      exact ⟨rfl, rfl, hbw, hba, hlen, hle, hkey⟩
    | balanceCheck ai =>
      unfold threadStep
      simp only []
      split_ifs with h1 <;> exact ⟨rfl, rfl, hbw, hba, hlen, hle, hkey⟩
    | createRec ai =>
      unfold threadStep
      simp only []
      cases hcr : createClaim db now (toLowerStr wa) (toUpperStr aa) ai.amount none "pending" with
      | error e => exact ⟨rfl, rfl, hbw, hba, hlen, hle, hkey⟩
      | ok p =>
        obtain ⟨db1, row⟩ := p
        obtain ⟨hrow, hdb1⟩ := createClaim_ok_spec hcr
        have hanyF : (db.claims.any fun r =>
            r.wallet_address == toLowerStr wa && r.asset == toUpperStr aa &&
              dateOf r.claimed_at == dateOf now) = false := by
          by_cases hany : (db.claims.any fun r =>
              r.wallet_address == toLowerStr wa && r.asset == toUpperStr aa &&
                dateOf r.claimed_at == dateOf now) = true
          · unfold createClaim at hcr
            rw [if_pos hany] at hcr
            cases hcr
          · simpa using hany
        have hempty : db.claims = [] := by
          cases hcl : db.claims with
          | nil => rfl
          | cons r rs =>
            have hr : r ∈ db.claims := by
              rw [hcl]
              exact List.mem_cons_self r rs
            obtain ⟨hw', ha', hd'⟩ := hkey r hr
            have hp : (r.wallet_address == toLowerStr wa && r.asset == toUpperStr aa &&
                (dateOf r.claimed_at == dateOf now)) = true := by
              simp [hw', ha', hd']
            have hT : (db.claims.any fun r =>
                r.wallet_address == toLowerStr wa && r.asset == toUpperStr aa &&
                  dateOf r.claimed_at == dateOf now) = true :=
              List.any_eq_true.mpr ⟨r, hr, hp⟩
            rw [hanyF] at hT
            cases hT
        have hb0 : b.insertedRows = 0 := by
          rw [hempty] at hlen
          simp only [List.length_nil, Th.insertedRows] at hlen ⊢
          omega
        dsimp only
        refine ⟨rfl, rfl, hbw, hba, ?_, ?_, ?_⟩
        · rw [hdb1, hempty, hb0]
          rfl
        · rw [hdb1]
          simp [hempty]
        · intro r hr
          rw [hdb1] at hr
          simp only [hempty, List.nil_append, List.mem_singleton] at hr
          subst hr
          rw [hrow]
          exact ⟨rfl, rfl, rfl⟩
    | sendTx ai row =>
      unfold threadStep
      simp only []
      cases hsend : sendAsset env (toUpperStr aa) wa ai.amount with
      | error e => exact ⟨rfl, rfl, hbw, hba, hlen, hle, hkey⟩
      | ok txh => exact ⟨rfl, rfl, hbw, hba, hlen, hle, hkey⟩
    | confirmWrite ai row txh =>
      refine ⟨rfl, rfl, hbw, hba, ?_, ?_, ?_⟩
      · rw [show (threadStep env now db ⟨wa, aa, .confirmWrite ai row txh⟩).1 =
            updateClaimStatus db row.id "confirmed" (some txh) from rfl,
          updateClaimStatus_length]
        exact hlen
      · rw [show (threadStep env now db ⟨wa, aa, .confirmWrite ai row txh⟩).1 =
            updateClaimStatus db row.id "confirmed" (some txh) from rfl,
          updateClaimStatus_length]
        exact hle
      · intro r' hr'
        rw [show (threadStep env now db ⟨wa, aa, .confirmWrite ai row txh⟩).1 =
            updateClaimStatus db row.id "confirmed" (some txh) from rfl] at hr'
        obtain ⟨r, hr, hw', ha', hd'⟩ := mem_updateClaimStatus _ _ _ _ _ hr'
        obtain ⟨kw, ka, kd⟩ := hkey r hr
        exact ⟨by rw [hw', kw], by rw [ha', ka], by rw [hd', kd]⟩
    | failWrite row =>
      refine ⟨rfl, rfl, hbw, hba, ?_, ?_, ?_⟩
      · rw [show (threadStep env now db ⟨wa, aa, .failWrite row⟩).1 =
            updateClaimStatus db row.id "failed" none from rfl,
          updateClaimStatus_length]
        exact hlen
      · rw [show (threadStep env now db ⟨wa, aa, .failWrite row⟩).1 =
            updateClaimStatus db row.id "failed" none from rfl,
          updateClaimStatus_length]
        exact hle
      · intro r' hr'
        rw [show (threadStep env now db ⟨wa, aa, .failWrite row⟩).1 =
            updateClaimStatus db row.id "failed" none from rfl] at hr'
        obtain ⟨r, hr, hw', ha', hd'⟩ := mem_updateClaimStatus _ _ _ _ _ hr'
        obtain ⟨kw, ka, kd⟩ := hkey r hr
        exact ⟨by rw [hw', kw], by rw [ha', ka], by rw [hd', kd]⟩
    | cooldownWrite ai row txh =>
      refine ⟨rfl, rfl, hbw, hba, ?_, ?_, ?_⟩
      · rw [show (threadStep env now db ⟨wa, aa, .cooldownWrite ai row txh⟩).1 =
            updateCooldown db now (toLowerStr wa) (toUpperStr aa) from rfl]
        rw [show (updateCooldown db now (toLowerStr wa) (toUpperStr aa)).claims.length =
            db.claims.length from by rw [updateCooldown_claims]]
        exact hlen
      · rw [show (threadStep env now db ⟨wa, aa, .cooldownWrite ai row txh⟩).1 =
            updateCooldown db now (toLowerStr wa) (toUpperStr aa) from rfl]
        rw [show (updateCooldown db now (toLowerStr wa) (toUpperStr aa)).claims.length =
            db.claims.length from by rw [updateCooldown_claims]]
        exact hle
      · intro r' hr'
        rw [show (threadStep env now db ⟨wa, aa, .cooldownWrite ai row txh⟩).1 =
            updateCooldown db now (toLowerStr wa) (toUpperStr aa) from rfl,
          updateCooldown_claims] at hr'
        exact hkey r' hr'
    | done o =>
      exact ⟨rfl, rfl, hbw, hba, hlen, hle, hkey⟩

/-- The invariant holds after any schedule. -/
lemma runSched_preserves (env : Env) (now : ℤ) (W A : String) :
    ∀ (s : List Bool) (db : DB) (a b : Th), ConcInv W A now db a b →
      ConcInv W A now (runSched env now s db a b).1
        (runSched env now s db a b).2.1 (runSched env now s db a b).2.2 := by
  intro s
  induction s with
  | nil =>
    intro db a b h
    simpa [runSched] using h
  | cons c s ih =>
    intro db a b h
    cases c with
    | true =>
      simp only [runSched]
      exact ih _ _ _ (threadStep_preserves env now W A db a b h)
    | false =>
      simp only [runSched]
      exact ih _ _ _ (ConcInv_swap (threadStep_preserves env now W A db b a (ConcInv_swap h)))

lemma succeeded_insertedRows (t : Th) (h : t.succeeded = true) : t.insertedRows = 1 := by
  obtain ⟨w, a, ph⟩ := t
  unfold Th.succeeded at h
  unfold Th.insertedRows
  cases ph with
  | done o => cases o <;> simp_all
  | _ => simp_all

/-- Counterexample to claim C1: there is no per-(wallet, asset) lock — each
`await` is a suspension point and calls interleave freely.  Under the
interleaving in which both calls read the cooldown before either writes, the
loser's `createClaim` violates the `unique_daily_claim` index and the call
ends in the outer catch's 500 (`internalError`), not in `CooldownActive`:
two concurrent calls for an eligible (wallet, asset) with ample balance
yield one `success` and one `internalError`. -/
theorem claim1_counterexample :
    (runSched env0 1700000000000
        [true, false, true, false, true, true, true, true, true, false, false]
        db0 ⟨W0, "BONE", .start⟩ ⟨W0, "BONE", .start⟩).2.1.phase =
      .done (.success 1 ⟨1, 1⟩ "0xhash1") ∧
    (runSched env0 1700000000000
        [true, false, true, false, true, true, true, true, true, false, false]
        db0 ⟨W0, "BONE", .start⟩ ⟨W0, "BONE", .start⟩).2.2.phase =
      .done .internalError ∧
    (runSched env0 1700000000000
        [true, false, true, false, true, true, true, true, true, false, false]
        db0 ⟨W0, "BONE", .start⟩ ⟨W0, "BONE", .start⟩).2.2.phase ≠
      .done (.cooldownActive 28800000) := by
  decide

/-- Claim C1 as amended: the code holds no per-(wallet, asset) lock, so the
claimed serialization only materialises when the calls do not interleave —
under the sequential schedule, one call is confirmed, the other receives
`CooldownActive` with the full remaining window, and exactly one confirmed
claim row exists.  Under an arbitrary schedule the only surviving guarantee
is the `unique_daily_claim` index: at most one of two concurrent calls for
the same (wallet, asset) can ever reach the confirmed outcome (the other
passes the cooldown check too, but its insert fails with an internal
error). -/
theorem claim1_amended :
    ((runSched env0 1700000000000
        [true, true, true, true, true, true, true, false, false, false]
        db0 ⟨W0, "BONE", .start⟩ ⟨W0, "BONE", .start⟩).2.1.phase =
          .done (.success 1 ⟨1, 1⟩ "0xhash1") ∧
      (runSched env0 1700000000000
        [true, true, true, true, true, true, true, false, false, false]
        db0 ⟨W0, "BONE", .start⟩ ⟨W0, "BONE", .start⟩).2.2.phase =
          .done (.cooldownActive 28800000) ∧
      ((runSched env0 1700000000000
        [true, true, true, true, true, true, true, false, false, false]
        db0 ⟨W0, "BONE", .start⟩ ⟨W0, "BONE", .start⟩).1.claims.filter
          (fun r => r.status == "confirmed")).length = 1) ∧
    ∀ s : List Bool,
      ¬((runSched env0 1700000000000 s db0 ⟨W0, "BONE", .start⟩
            ⟨W0, "BONE", .start⟩).2.1.succeeded = true ∧
        (runSched env0 1700000000000 s db0 ⟨W0, "BONE", .start⟩
            ⟨W0, "BONE", .start⟩).2.2.succeeded = true) := by
  constructor
  · exact ⟨by decide, by decide, by decide⟩
  · intro s hboth
    obtain ⟨hA, hB⟩ := hboth
    have hInv := runSched_preserves env0 1700000000000 W0 "BONE" s db0
      ⟨W0, "BONE", .start⟩ ⟨W0, "BONE", .start⟩
      ⟨rfl, rfl, rfl, rfl, rfl, by decide, by intro r hr; simp [db0] at hr⟩
    obtain ⟨_, _, _, _, hlen, hle, _⟩ := hInv
    rw [succeeded_insertedRows _ hA, succeeded_insertedRows _ hB] at hlen
    omega

/-- Witness for the amended C1: at the fully interleaved schedule, the two
calls do not both succeed. -/
theorem claim1_amended_witness :
    ¬((runSched env0 1700000000000
          [true, false, true, false, true, true, true, true, true, false, false]
          db0 ⟨W0, "BONE", .start⟩ ⟨W0, "BONE", .start⟩).2.1.succeeded = true ∧
      (runSched env0 1700000000000
          [true, false, true, false, true, true, true, true, true, false, false]
          db0 ⟨W0, "BONE", .start⟩ ⟨W0, "BONE", .start⟩).2.2.succeeded = true) :=
  claim1_amended.2 [true, false, true, false, true, true, true, true, true, false, false]

end Faucet
